import Mathlib

/-!
Verification development for the Artifactory retention/cleanup utility
(src/lavatory/utils/artifactory.py).

The source is shallowly embedded: the external repository-server client
(the find/delete endpoints) is passed in as an explicit oracle, Python's
mutation of the caller's terms list is modelled by returning the final
list, and every function additionally returns the trace of external
requests it issued.  Python truthiness of the optional parameters is
modelled explicitly (pyInt, pyStr, pyTruthyJson, pySkip).
-/

/-- JSON values, as produced by the query-building code.  Objects keep
their insertion order, matching Python dicts. -/
inductive Json where
  | str : String → Json
  | num : Int → Json
  | arr : List Json → Json
  | obj : List (String × Json) → Json

/-- Lower-case hex digit. -/
def hexDigit (n : Nat) : String :=
  if n < 10 then toString n
  else if n = 10 then "a"
  else if n = 11 then "b"
  else if n = 12 then "c"
  else if n = 13 then "d"
  else if n = 14 then "e"
  else "f"

/-- Four lower-case hex digits, as in Python json \uXXXX escapes. -/
def hex4 (n : Nat) : String :=
  hexDigit (n / 4096 % 16) ++ hexDigit (n / 256 % 16) ++ hexDigit (n / 16 % 16) ++ hexDigit (n % 16)

/-- Escaping of a single character, following Python json.dumps with its
default ensure_ascii=True setting. -/
def escapeChar (c : Char) : String :=
  if c = '"' then "\\\""
  else if c = '\\' then "\\\\"
  else if c = '\n' then "\\n"
  else if c = '\t' then "\\t"
  else if c = '\r' then "\\r"
  else if c = '\x08' then "\\b"
  else if c = '\x0c' then "\\f"
  else if c.toNat < 0x20 then "\\u" ++ hex4 c.toNat
  else if c.toNat < 0x80 then String.singleton c
  else if c.toNat < 0x10000 then "\\u" ++ hex4 c.toNat
  else
    let v := c.toNat - 0x10000
    "\\u" ++ hex4 (0xd800 + v / 0x400) ++ "\\u" ++ hex4 (0xdc00 + v % 0x400)

/-- String-body escaping for json.dumps. -/
def escapeStr (s : String) : String :=
  s.data.foldl (fun acc c => acc ++ escapeChar c) ""

mutual

/-- Serialization of a JSON value exactly as Python json.dumps renders it
with default separators: elements joined by a comma and a space, keys
followed by a colon and a space. -/
def renderJson : Json → String
  | Json.str s => "\"" ++ escapeStr s ++ "\""
  | Json.num n => toString n
  | Json.arr xs => "[" ++ renderJsonArr xs ++ "]"
  | Json.obj kvs => "\x7b" ++ renderJsonObj kvs ++ "\x7d"

/-- Comma-and-space separated rendering of array elements. -/
def renderJsonArr : List Json → String
  | [] => ""
  | [x] => renderJson x
  | x :: y :: xs => renderJson x ++ ", " ++ renderJsonArr (y :: xs)

/-- Comma-and-space separated rendering of object entries. -/
def renderJsonObj : List (String × Json) → String
  | [] => ""
  | [(k, v)] => "\"" ++ escapeStr k ++ "\": " ++ renderJson v
  | (k, v) :: e :: kvs =>
    "\"" ++ escapeStr k ++ "\": " ++ renderJson v ++ ", " ++ renderJsonObj (e :: kvs)

end

/-- Python truthiness of an optional int parameter: None and 0 are falsy. -/
def pyInt : Option Int → Bool
  | none => false
  | some n => decide (n ≠ 0)

/-- Python truthiness of an optional string parameter: None and the empty
string are falsy. -/
def pyStr : Option String → Bool
  | none => false
  | some s => decide (s ≠ "")

/-- Python truthiness of a JSON value: empty containers, the empty string
and zero are falsy. -/
def pyTruthyJson : Json → Bool
  | Json.str s => decide (s ≠ "")
  | Json.num n => decide (n ≠ 0)
  | Json.arr l => !l.isEmpty
  | Json.obj l => !l.isEmpty

/-- A record returned by the server's find endpoint.  The engine reads
the path, name and created fields; repo, type and depth are the fields the
mandatory query terms constrain. -/
structure Item where
  repo : String
  itemType : String
  depth : Int
  path : String
  name : String
  created : String
deriving DecidableEq

/-- The path/name reference under which an artifact is reported purgable:
artifact path joined to artifact name with a slash. -/
def itemRef (a : Item) : String :=
  a.path ++ "/" ++ a.name

/-- The three mandatory equality terms the filter appends: repo, folder
type, and depth. -/
def mandatoryTerms (repo : String) (depth : Int) : List Json :=
  [Json.obj [("repo", Json.obj [("$eq", Json.str repo)])],
   Json.obj [("type", Json.obj [("$eq", Json.str "folder")])],
   Json.obj [("depth", Json.obj [("$eq", Json.num depth)])]]

/-- The term list after filter has appended its three mandatory terms to
the caller-supplied list (Python list.append mutates the caller's list). -/
def filterTerms (repo : String) (depth : Int) (terms : List Json) : List Json :=
  terms ++ mandatoryTerms repo depth

/-- The sort clause: appended only when the sort parameter is truthy. -/
def sortClause : Option Json → String
  | none => ""
  | some s => if pyTruthyJson s then ".sort(" ++ renderJson s ++ ")" else ""

/-- The offset clause: appended only when the offset parameter is truthy,
so offset 0 and offset None both produce nothing. -/
def offsetClause : Option Int → String
  | none => ""
  | some n => if n ≠ 0 then ".offset(" ++ toString n ++ ")" else ""

/-- The limit clause: appended only when the limit parameter is truthy. -/
def limitClause : Option Int → String
  | none => ""
  | some n => if n ≠ 0 then ".limit(" ++ toString n ++ ")" else ""

/-- The composed AQL text submitted to the find endpoint, exactly as the
source builds it. -/
def filterAql (repo : String) (terms : Option (List Json)) (depth : Int)
    (sort : Option Json) (offset limit : Option Int) : String :=
  "items.find(" ++ renderJson (Json.obj [("$and", Json.arr (filterTerms repo depth (terms.getD [])))]) ++ ")"
    ++ sortClause sort ++ offsetClause offset ++ limitClause limit

/-- The query issued by retain to enumerate candidate projects: no extra
terms, no sort, offset or limit. -/
def projectAql (repo : String) (depth : Int) : String :=
  filterAql repo none depth none none none

/-- Output of one filter call: the results the server returned, the AQL
string that was issued, and the final state of the (mutated) terms list. -/
structure FilterResult where
  results : List Item
  aql : String
  termsAfter : List Json

/-- A naive Python datetime: days since 1970-01-01 in the proleptic
Gregorian calendar, plus seconds within the day. -/
structure PyDateTime where
  days : Int
  secs : Nat

/-- Subtracting datetime.timedelta(weeks=w): exactly 7*w days. -/
def pySubWeeks (d : PyDateTime) (w : Int) : PyDateTime :=
  ⟨d.days - 7 * w, d.secs⟩

/-- Convert a day count since 1970-01-01 to a proleptic Gregorian
(year, month, day) triple. -/
def civilFromDays (z0 : Int) : Int × Int × Int :=
  let z := z0 + 719468
  let era := z / 146097
  let doe := z - era * 146097
  let yoe := (doe - doe / 1460 + doe / 36524 - doe / 146096) / 365
  let y := yoe + era * 400
  let doy := doe - (365 * yoe + yoe / 4 - yoe / 100)
  let mp := (5 * doy + 2) / 153
  let d := doy - (153 * mp + 2) / 5 + 1
  let m := if mp < 10 then mp + 3 else mp - 9
  (if m ≤ 2 then y + 1 else y, m, d)

/-- Zero-padded two-digit decimal field. -/
def pad2 (n : Int) : String :=
  if n < 10 then "0" ++ toString n else toString n

/-- Zero-padded four-digit decimal field (Python %Y on Linux). -/
def pad4 (n : Int) : String :=
  if n < 10 then "000" ++ toString n
  else if n < 100 then "00" ++ toString n
  else if n < 1000 then "0" ++ toString n
  else toString n

/-- strftime with the format the source uses: %Y-%m-%dT%H:%M:%SZ. -/
def pyStrftimeISO (dt : PyDateTime) : String :=
  let c := civilFromDays dt.days
  pad4 c.1 ++ "-" ++ pad2 c.2.1 ++ "-" ++ pad2 c.2.2 ++ "T"
    ++ pad2 (Int.ofNat (dt.secs / 3600)) ++ ":"
    ++ pad2 (Int.ofNat (dt.secs % 3600 / 60)) ++ ":"
    ++ pad2 (Int.ofNat (dt.secs % 60)) ++ "Z"

/-- The number of None values among the three retention-policy parameters,
as computed by the source's count(None) over the three-element list. -/
def noneCount (terms : Option (List Json)) (count weeks : Option Int) : Nat :=
  (if terms.isNone then 1 else 0) + (if count.isNone then 1 else 0)
    + (if weeks.isNone then 1 else 0)

/-- The project-skipping test: skip when spec_project is truthy and
differs from the project name. -/
def pySkip : Option String → String → Bool
  | none, _ => false
  | some s, nm => decide (s ≠ "") && decide (s ≠ nm)

/-- A single-field path term, as built inline in the retain branches. -/
def pathTerm (path : String) : Json :=
  Json.obj [("path", Json.str path)]

/-- The sort argument of the count policy: created, descending. -/
def sortByCreatedDesc : Json :=
  Json.obj [("$desc", Json.arr [Json.str "created"])]

namespace Artifactory

/-- Embedding of Artifactory.filter: append the three mandatory terms to
the caller's terms list, compose the AQL text with the optional clauses,
submit it to the find endpoint (the env oracle) and return its results. -/
def filter (env : String → List Item) (repo : String) (terms : Option (List Json))
    (depth : Int) (sort : Option Json) (offset limit : Option Int) : FilterResult :=
  let ts := filterTerms repo depth (terms.getD [])
  let aql := filterAql repo terms depth sort offset limit
  ⟨env aql, aql, ts⟩

/-- Embedding of the per-project loop body of Artifactory.retain. -/
def retainStep (env : String → List Item) (now : PyDateTime) (repo : String)
    (spec_project : Option String) (depth : Int)
    (_terms : Option (List Json)) (count : Option Int) (weeks : Option Int)
    (acc : List String × List String) (project : Item) : List String × List String :=
  if pySkip spec_project project.name then acc
  else
    let path := project.path ++ "/" ++ project.name
    let acc :=
      if pyInt count then
        let fr := filter env repo (some [pathTerm path]) (depth + 1)
          (some sortByCreatedDesc) count none
        (acc.1 ++ fr.results.map itemRef, acc.2 ++ [fr.aql])
      else acc
    let acc :=
      if pyInt weeks then
        let before := pySubWeeks now (weeks.getD 0)
        let created := pyStrftimeISO before
        let fr := filter env repo
          (some [pathTerm path, Json.obj [("created", Json.str created)]])
          (depth + 1) none count none
        (acc.1 ++ fr.results.map itemRef, acc.2 ++ [fr.aql])
      else acc
    -- the terms policy branch of the source is a bare pass
    acc

/-- Embedding of Artifactory.retain: validate that exactly one policy
parameter is non-None, enumerate projects, run the per-project step, and
return the purgable list together with the trace of issued AQL queries. -/
def retain (env : String → List Item) (now : PyDateTime) (repo : String)
    (spec_project : Option String) (depth : Int)
    (terms : Option (List Json)) (count : Option Int) (weeks : Option Int) :
    Except String (List String) × List String :=
  if noneCount terms count weeks ≠ 2 then
    (Except.error "Must specify exactly one of terms, count, or weeks", [])
  else
    let pf := filter env repo none depth none none none
    let r := pf.results.foldl
      (retainStep env now repo spec_project depth terms count weeks) ([], [pf.aql])
    (Except.ok r.1, r.2)

/-- Embedding of Artifactory.purge.  The delete oracle reports whether the
server accepted each delete request.  Returns the success count, the trace
of issued delete requests, and the trace of logged per-item errors. -/
def purge (delete : String → Bool) (_repo : String) (dry_run : Bool)
    (artifacts : List String) : Nat × List String × List String :=
  artifacts.foldl
    (fun acc artifact =>
      if dry_run then (acc.1 + 1, acc.2.1, acc.2.2)
      else if delete artifact then (acc.1 + 1, acc.2.1 ++ [artifact], acc.2.2)
      else (acc.1, acc.2.1 ++ [artifact], acc.2.2 ++ [artifact]))
    (0, [], [])

end Artifactory

/-- A repository summary record from the server's storageinfo listing:
the repoKey identifies it, the remaining summary payload is opaque. -/
structure RepoSummary where
  repoKey : String
  info : String
deriving DecidableEq

/-- Python dict insertion repos[k] = v on an insertion-ordered mapping:
overwrite an existing key in place, otherwise append at the end. -/
def dictInsert (m : List (String × RepoSummary)) (k : String) (v : RepoSummary) :
    List (String × RepoSummary) :=
  if m.any (fun kv => kv.1 == k) then
    m.map (fun kv => if kv.1 == k then (k, v) else kv)
  else m ++ [(k, v)]

/-- Lexicographic comparison of character lists by code point. -/
def charListLt : List Char → List Char → Bool
  | [], [] => false
  | [], _ :: _ => true
  | _ :: _, [] => false
  | x :: xs, y :: ys =>
    if x.toNat < y.toNat then true
    else if y.toNat < x.toNat then false
    else charListLt xs ys

/-- Lexicographic string order by code point, the order both Python's
sorted() and the server's timestamp sort follow. -/
def strLt (a b : String) : Bool := charListLt a.data b.data

/-- Stable insertion of a string into an ascending list. -/
def insertStr (x : String) : List String → List String
  | [] => [x]
  | y :: ys => if strLt x y then x :: y :: ys else y :: insertStr x ys

/-- Modelled from the spec: Python's sorted() over the discovered file
paths — ascending lexicographic order (the external client exposes the
discovered-file set; sorted() is the stdlib sort the source applies). -/
def sortStrings : List String → List String
  | [] => []
  | x :: xs => insertStr x (sortStrings xs)

/-- Python str.split with an explicit separator character, over the
character list: a separator at either end or doubled yields empty parts,
and the empty string yields one empty part. -/
def splitOnChar (c : Char) : List Char → List (List Char)
  | [] => [[]]
  | ch :: rest =>
    match splitOnChar c rest with
    | [] => [[]]
    | g :: gs => if ch = c then [] :: g :: gs else (ch :: g) :: gs

/-- Python '/'.join over a list of strings. -/
def joinSlash : List String → String
  | [] => ""
  | [x] => x
  | x :: y :: xs => x ++ "/" ++ joinSlash (y :: xs)

namespace Artifactory

/-- Embedding of the loop body of Artifactory.list: skip the synthetic
TOTAL aggregate, keep a repo when repo_name is falsy or equal to its key. -/
def listStep (repo_name : Option String) (repos : List (String × RepoSummary))
    (repo : RepoSummary) : List (String × RepoSummary) :=
  if repo.repoKey == "TOTAL" then repos
  else if !pyStr repo_name || repo_name == some repo.repoKey then
    dictInsert repos repo.repoKey repo
  else repos

/-- Embedding of Artifactory.list: data is the repositoriesSummaryList the
storageinfo endpoint returned, in server order. -/
def list (data : List RepoSummary) (repo_name : Option String) :
    List (String × RepoSummary) :=
  data.foldl (listStep repo_name) []

/-- Embedding of Artifactory._parse_artifact_name: join the last four
slash-separated components (all of them when there are fewer than four,
as with a Python list sliced by -4). -/
def parse_artifact_name (name : String) : String :=
  let parts := (splitOnChar '/' name.data).map String.mk
  joinSlash (parts.drop (parts.length - 4))

/-- Embedding of Artifactory.all_artifacts.  findByPattern is the external
pattern search (its result is the discovered-file set the client holds
afterwards).  Returns the mapping the function returns together with the
trace of get_properties fetches.  The loop computes each artifact's simple
name for logging and fetches its properties, but never writes to the
returned mapping. -/
def all_artifacts (findByPattern : String → String → Int → List String)
    (search repo : String) (depth : Int) :
    List (String × List (String × String)) × List String :=
  let files := findByPattern search repo depth
  (sortStrings files).foldl
    (fun acc artifact =>
      let _artifact_simple_name := parse_artifact_name artifact
      (acc.1, acc.2 ++ [artifact]))
    ([], [])

end Artifactory

/-- Stable insertion of an item into a created-descending list. -/
def insertDesc (x : Item) : List Item → List Item
  | [] => [x]
  | y :: ys => if strLt y.created x.created then x :: y :: ys else y :: insertDesc x ys

/-- Modelled from the spec: the server's created-descending sort order for
a .sort with a $desc on created.  ISO-8601 timestamps of the form used
here compare chronologically as strings. -/
def sortDescCreated : List Item → List Item
  | [] => []
  | x :: xs => insertDesc x (sortDescCreated xs)

/-- Modelled from the spec: the server's .offset(n) semantics — skip the
first n results. -/
def dropOffset (n : Int) (l : List Item) : List Item :=
  l.drop n.toNat

/-- String-valued field lookup on an item, for AQL term matching. -/
def getFieldStr (it : Item) : String → Option String
  | "repo" => some it.repo
  | "type" => some it.itemType
  | "path" => some it.path
  | "name" => some it.name
  | "created" => some it.created
  | _ => none

/-- Modelled from the spec: matching of a single AQL query term against an
item.  The query vocabulary the spec preserves is $eq (with $and/$desc for
combination and sorting); a bare field-to-value term carries the default
comparator, which is equality. -/
def matchesTerm (it : Item) : Json → Bool
  | Json.obj [(f, Json.obj [("$eq", Json.str v)])] => getFieldStr it f == some v
  | Json.obj [("depth", Json.obj [("$eq", Json.num v)])] => it.depth == v
  | Json.obj [(f, Json.str v)] => getFieldStr it f == some v
  | Json.obj [("depth", Json.num v)] => it.depth == v
  | _ => false

/-- Modelled from the spec: an item matches an AND-combined filter when it
matches every term. -/
def matchesAnd (it : Item) (ts : List Json) : Bool :=
  ts.all (matchesTerm it)

/-- The artifact query the count policy issues for a project: its path
term, depth one deeper, created-descending sort, and the count as offset. -/
def countQuery (repo : String) (depth : Int) (N : Int) (p : Item) : String :=
  filterAql repo (some [pathTerm (p.path ++ "/" ++ p.name)]) (depth + 1)
    (some sortByCreatedDesc) (some N) none

/-- A fixed clock for scenarios that never read it. -/
def dt0 : PyDateTime := ⟨0, 0⟩

/-- The single candidate project of the count-zero scenario. -/
def proj0 : Item := ⟨"r", "folder", 0, "p", "proj", ""⟩

/-- The artifact store under the count-zero scenario's project. -/
def store0 : List Item := [⟨"r", "folder", 1, "p/proj", "a1", "2020-01-01T00:00:00Z"⟩]

/-- The artifact query the count policy would issue for that project with
offset 0. -/
def countQuery0 : String := countQuery "r" 0 0 proj0

/-- A compliant server for the count-zero scenario: it answers the project
query with the project and the (never-issued) artifact query with the
artifacts beyond the zero most recent. -/
def env0 : String → List Item := fun s =>
  if s = projectAql "r" 0 then [proj0]
  else if s = countQuery0 then dropOffset 0 (sortDescCreated store0)
  else []

/-- The candidate project of the ten-artifact count scenario. -/
def proj10 : Item := ⟨"repo", "folder", 0, "top", "projA", ""⟩

/-- Ten artifacts under top/projA, listed out of order; their names match
their created dates. -/
def arts10 : List Item :=
  [⟨"repo", "folder", 1, "top/projA", "a04", "2020-01-04T00:00:00Z"⟩,
   ⟨"repo", "folder", 1, "top/projA", "a09", "2020-01-09T00:00:00Z"⟩,
   ⟨"repo", "folder", 1, "top/projA", "a01", "2020-01-01T00:00:00Z"⟩,
   ⟨"repo", "folder", 1, "top/projA", "a10", "2020-01-10T00:00:00Z"⟩,
   ⟨"repo", "folder", 1, "top/projA", "a06", "2020-01-06T00:00:00Z"⟩,
   ⟨"repo", "folder", 1, "top/projA", "a02", "2020-01-02T00:00:00Z"⟩,
   ⟨"repo", "folder", 1, "top/projA", "a08", "2020-01-08T00:00:00Z"⟩,
   ⟨"repo", "folder", 1, "top/projA", "a05", "2020-01-05T00:00:00Z"⟩,
   ⟨"repo", "folder", 1, "top/projA", "a07", "2020-01-07T00:00:00Z"⟩,
   ⟨"repo", "folder", 1, "top/projA", "a03", "2020-01-03T00:00:00Z"⟩]

/-- The per-path artifact store of the ten-artifact scenario. -/
def store10 : String → List Item := fun p => if p = "top/projA" then arts10 else []

/-- The artifact query of the ten-artifact scenario: count 3 as offset. -/
def countQuery10 : String := countQuery "repo" 0 3 proj10

/-- A compliant server for the ten-artifact scenario: the project query
yields the project, the offset-3 sorted artifact query yields everything
beyond the three most recent. -/
def env10 : String → List Item := fun s =>
  if s = projectAql "repo" 0 then [proj10]
  else if s = countQuery10 then dropOffset 3 (sortDescCreated (store10 "top/projA"))
  else []

/-- The clock of the weeks scenario: 2020-01-15 00:00:00. -/
def dt3 : PyDateTime := ⟨18276, 0⟩

/-- The cutoff the code computes for weeks = 1 under that clock:
2020-01-08T00:00:00Z. -/
def cutoff3 : String := pyStrftimeISO (pySubWeeks dt3 1)

/-- The candidate project of the weeks scenario. -/
def proj3 : Item := ⟨"r", "folder", 0, "p", "proj", ""⟩

/-- An artifact created strictly before the cutoff. -/
def oldArt3 : Item := ⟨"r", "folder", 1, "p/proj", "old", "2019-12-01T00:00:00Z"⟩

/-- An artifact created at exactly the cutoff second. -/
def exactArt3 : Item := ⟨"r", "folder", 1, "p/proj", "exact", cutoff3⟩

/-- The store under the weeks scenario's project. -/
def store3 : List Item := [oldArt3, exactArt3]

/-- The full AND-combined term list of the weeks query the code builds. -/
def weeksTerms3 : List Json :=
  filterTerms "r" 1 [pathTerm "p/proj", Json.obj [("created", Json.str cutoff3)]]

/-- The weeks query string the code issues for that project. -/
def weeksQ3 : String :=
  filterAql "r" (some [pathTerm "p/proj", Json.obj [("created", Json.str cutoff3)]]) 1
    none none none

/-- A server for the weeks scenario that evaluates the issued query under
the spec's AQL vocabulary (default comparator: equality). -/
def env3 : String → List Item := fun s =>
  if s = projectAql "r" 0 then [proj3]
  else if s = weeksQ3 then store3.filter (fun it => matchesAnd it weeksTerms3)
  else []

/-- A fold whose step ignores the element and returns the accumulator
unchanged leaves the initial accumulator fixed. -/
theorem foldl_const_acc {α β : Type} (f : β → α → β) (h : ∀ b a, f b a = b) :
    ∀ (l : List α) (b : β), l.foldl f b = b := by
  intro l
  induction l with
  | nil => intro b; rfl
  | cons a l ih => intro b; rw [List.foldl_cons, h]; exact ih b

/-- A fold that, for each kept element, appends a block to the first
component and one entry to the second, collects exactly the filtered
binds and maps. -/
theorem foldl_collect (skip : Item → Bool) (F : Item → List String) (G : Item → String) :
    ∀ (l : List Item) (acc : List String × List String),
      l.foldl (fun a p => if skip p then a else (a.1 ++ F p, a.2 ++ [G p])) acc
        = (acc.1 ++ (l.filter (fun p => !skip p)).flatMap F,
           acc.2 ++ (l.filter (fun p => !skip p)).map G) := by
  intro l
  induction l with
  | nil => intro acc; simp
  | cons p l ih =>
    intro acc
    rw [List.foldl_cons]
    by_cases hp : skip p
    · rw [if_pos hp, ih]
      simp [List.filter_cons, hp]
    · rw [if_neg hp, ih]
      simp [List.filter_cons, hp, List.append_assoc]

/-- Binding with pointwise-equal functions over the members gives equal
results. -/
theorem bind_congr_mem {α β : Type} (l : List α) (f g : α → List β)
    (h : ∀ a ∈ l, f a = g a) : l.flatMap f = l.flatMap g := by
  induction l with
  | nil => rfl
  | cons a l ih =>
    simp only [List.flatMap_cons]
    rw [h a (List.mem_cons_self a l), ih fun x hx => h x (List.mem_cons_of_mem a hx)]

/-- Appending the empty string is the identity. -/
theorem strAppendEmpty (s : String) : s ++ "" = s := by
  cases s
  show String.mk _ = String.mk _
  simp [String.append]

/-- C1: a retain call in which not exactly one of terms, count, weeks is
non-None fails immediately with the invalid-argument error.  The result
does not depend on the env oracle and the issued-query trace is empty, so
the external find API is never invoked. -/
theorem retain_invalid_policy_error (env : String → List Item) (now : PyDateTime)
    (repo : String) (sp : Option String) (depth : Int) (terms : Option (List Json))
    (count weeks : Option Int) (h : noneCount terms count weeks ≠ 2) :
    Artifactory.retain env now repo sp depth terms count weeks
      = (Except.error "Must specify exactly one of terms, count, or weeks", []) := by
  unfold Artifactory.retain
  rw [if_pos h]

/-- C1 witness: two of the three policy parameters supplied. -/
theorem retain_invalid_policy_error_witness :
    noneCount (some []) (some 1) none ≠ 2
    ∧ Artifactory.retain (fun _ => []) ⟨0, 0⟩ "r" none 0 (some []) (some 1) none
        = (Except.error "Must specify exactly one of terms, count, or weeks", []) :=
  ⟨by decide,
   retain_invalid_policy_error (fun _ => []) ⟨0, 0⟩ "r" none 0 (some []) (some 1) none
     (by decide)⟩

/-- C7: under the terms policy (terms non-None, count and weeks None) the
per-project branch is a no-op: the returned purgable list is empty and
only the single project-enumeration query is issued. -/
theorem retain_terms_policy_noop (env : String → List Item) (now : PyDateTime)
    (repo : String) (sp : Option String) (depth : Int) (ts : List Json) :
    Artifactory.retain env now repo sp depth (some ts) none none
      = (Except.ok [], [projectAql repo depth]) := by
  unfold Artifactory.retain
  rw [if_neg (fun hh => hh rfl)]
  have hstep : (Artifactory.retainStep env now repo sp depth (some ts) none none)
      = fun acc _ => acc := by
    funext acc p
    simp [Artifactory.retainStep, pyInt]
  simp only [Artifactory.filter, hstep]
  rw [foldl_const_acc _ (fun _ _ => rfl)]
  rfl

/-- C6: a dry-run purge returns the length of the artifact list, issues no
delete requests and logs no errors. -/
theorem purge_dry_run_count (delete : String → Bool) (repo : String)
    (artifacts : List String) :
    Artifactory.purge delete repo true artifacts = (artifacts.length, [], []) := by
  unfold Artifactory.purge
  have aux : ∀ (l : List String) (n : Nat) (r e : List String),
      l.foldl (fun acc artifact =>
          if true then (acc.1 + 1, acc.2.1, acc.2.2)
          else if delete artifact then (acc.1 + 1, acc.2.1 ++ [artifact], acc.2.2)
          else (acc.1, acc.2.1 ++ [artifact], acc.2.2 ++ [artifact])) (n, r, e)
        = (n + l.length, r, e) := by
    intro l
    induction l with
    | nil => intro n r e; simp
    | cons a l ih =>
      intro n r e
      rw [List.foldl_cons, if_pos rfl, ih]
      simp [Nat.add_comm, Nat.add_assoc, Nat.add_left_comm]
  rw [aux]
  simp

/-- C5: a live purge attempts every artifact in order (the delete-request
trace equals the artifact list), continues past per-item failures while
logging them, and returns the number of successful deletions. -/
theorem purge_live_continue_on_error (delete : String → Bool) (repo : String)
    (artifacts : List String) :
    Artifactory.purge delete repo false artifacts
      = (artifacts.countP delete, artifacts, artifacts.filter (fun a => !delete a)) := by
  unfold Artifactory.purge
  have aux : ∀ (l : List String) (n : Nat) (r e : List String),
      l.foldl (fun acc artifact =>
          if false then (acc.1 + 1, acc.2.1, acc.2.2)
          else if delete artifact then (acc.1 + 1, acc.2.1 ++ [artifact], acc.2.2)
          else (acc.1, acc.2.1 ++ [artifact], acc.2.2 ++ [artifact])) (n, r, e)
        = (n + l.countP delete, r ++ l, e ++ l.filter (fun a => !delete a)) := by
    intro l
    induction l with
    | nil => intro n r e; simp
    | cons a l ih =>
      intro n r e
      rw [List.foldl_cons]
      by_cases ha : delete a
      · rw [if_neg (by simp), if_pos ha, ih]
        simp [List.countP_cons, ha, List.filter_cons, Nat.add_comm, Nat.add_assoc,
          Nat.add_left_comm, List.append_assoc]
      · rw [if_neg (by simp), if_neg ha, ih]
        simp [List.countP_cons, ha, List.filter_cons, List.append_assoc]
  rw [aux]
  simp

/-- C9: all_artifacts always returns an empty mapping, whatever the
pattern search discovered; the discovered artifacts are still visited in
sorted order and their properties fetched. -/
theorem all_artifacts_empty_result (findByPattern : String → String → Int → List String)
    (search repo : String) (depth : Int) :
    (Artifactory.all_artifacts findByPattern search repo depth).1 = []
    ∧ (Artifactory.all_artifacts findByPattern search repo depth).2
        = sortStrings (findByPattern search repo depth) := by
  unfold Artifactory.all_artifacts
  have aux : ∀ (l : List String) (m : List (String × List (String × String))) (f : List String),
      l.foldl (fun acc artifact =>
          let _artifact_simple_name := Artifactory.parse_artifact_name artifact
          (acc.1, acc.2 ++ [artifact])) (m, f)
        = (m, f ++ l) := by
    intro l
    induction l with
    | nil => intro m f; simp
    | cons a l ih => intro m f; rw [List.foldl_cons, ih]; simp [List.append_assoc]
  rw [aux]
  simp

/-- C10: filter appends the three mandatory terms to the caller-supplied
terms list (Python list.append mutates the caller's list, modelled here by
the termsAfter component), so the caller's list grows by three entries,
and a second filter call reusing the grown list accumulates the mandatory
terms twice. -/
theorem filter_terms_mutation (env env2 : String → List Item) (repo : String)
    (terms : List Json) (depth : Int) (sort sort2 : Option Json)
    (offset limit offset2 limit2 : Option Int) :
    (Artifactory.filter env repo (some terms) depth sort offset limit).termsAfter
        = terms ++ mandatoryTerms repo depth
    ∧ (Artifactory.filter env repo (some terms) depth sort offset limit).termsAfter.length
        = terms.length + 3
    ∧ (Artifactory.filter env2 repo
          (some ((Artifactory.filter env repo (some terms) depth sort offset limit).termsAfter))
          depth sort2 offset2 limit2).termsAfter
        = terms ++ mandatoryTerms repo depth ++ mandatoryTerms repo depth := by
  refine ⟨rfl, ?_, rfl⟩
  show (terms ++ mandatoryTerms repo depth).length = terms.length + 3
  rw [List.length_append]
  rfl

/-- C4: the composed query is items.find of the AND of the caller terms
followed by exactly the three mandatory equality terms (repo, folder
type, depth), with sort, offset and limit clauses appended only when the
corresponding parameter is truthy; in particular offset 0 yields the same
query as no offset, while offset 5 appends .offset(5). -/
theorem filter_query_composition :
    (∀ (env : String → List Item) (repo : String) (terms : Option (List Json))
        (depth : Int) (sort : Option Json) (offset limit : Option Int),
      (Artifactory.filter env repo terms depth sort offset limit).aql
        = "items.find("
            ++ renderJson (Json.obj [("$and", Json.arr (terms.getD []
                 ++ [Json.obj [("repo", Json.obj [("$eq", Json.str repo)])],
                     Json.obj [("type", Json.obj [("$eq", Json.str "folder")])],
                     Json.obj [("depth", Json.obj [("$eq", Json.num depth)])]]))])
            ++ ")" ++ sortClause sort ++ offsetClause offset ++ limitClause limit)
    ∧ (∀ (env : String → List Item) (repo : String) (terms : Option (List Json))
        (depth : Int) (sort : Option Json) (limit : Option Int),
      (Artifactory.filter env repo terms depth sort (some 0) limit).aql
        = (Artifactory.filter env repo terms depth sort none limit).aql)
    ∧ (∀ (env : String → List Item) (repo : String) (terms : Option (List Json))
        (depth : Int) (sort : Option Json),
      (Artifactory.filter env repo terms depth sort (some 5) none).aql
        = (Artifactory.filter env repo terms depth sort none none).aql ++ ".offset(5)") := by
  refine ⟨fun _ _ _ _ _ _ _ => rfl, fun _ _ _ _ _ _ => rfl, ?_⟩
  intro env repo terms depth sort
  show filterAql repo terms depth sort (some 5) none
    = filterAql repo terms depth sort none none ++ ".offset(5)"
  unfold filterAql
  rw [show offsetClause (some 5) = ".offset(5)" from rfl,
    show offsetClause none = "" from rfl,
    show limitClause none = "" from rfl,
    strAppendEmpty, strAppendEmpty, strAppendEmpty]

/-- Mapping with pointwise-equal functions over the members gives equal
results. -/
theorem map_congr_mem {α β : Type} (l : List α) (f g : α → β)
    (h : ∀ a ∈ l, f a = g a) : l.map f = l.map g := by
  induction l with
  | nil => rfl
  | cons a l ih =>
    simp only [List.map_cons]
    rw [h a (List.mem_cons_self a l), ih fun x hx => h x (List.mem_cons_of_mem a hx)]

/-- The keys of a dict after insertion: unchanged when the key was
present, extended by the key at the end otherwise. -/
theorem dictInsert_keys (m : List (String × RepoSummary)) (k : String) (v : RepoSummary) :
    (dictInsert m k v).map Prod.fst
      = if m.any (fun kv => kv.1 == k) then m.map Prod.fst else m.map Prod.fst ++ [k] := by
  unfold dictInsert
  by_cases hm : m.any (fun kv => kv.1 == k)
  · rw [if_pos hm, if_pos hm, List.map_map]
    apply map_congr_mem
    intro kv _
    by_cases hk : kv.1 == k
    · simp only [Function.comp_apply, if_pos hk]
      exact (eq_of_beq hk).symm
    · simp only [Function.comp_apply, if_neg hk]
  · rw [if_neg hm, if_neg hm, List.map_append]
    rfl

/-- The TOTAL key is never inserted by the list loop. -/
theorem list_total_aux (rn : Option String) :
    ∀ (data : List RepoSummary) (acc : List (String × RepoSummary)),
      "TOTAL" ∉ acc.map Prod.fst
      → "TOTAL" ∉ (data.foldl (Artifactory.listStep rn) acc).map Prod.fst := by
  intro data
  induction data with
  | nil => intro acc h; exact h
  | cons r l ih =>
    intro acc h
    rw [List.foldl_cons]
    apply ih
    unfold Artifactory.listStep
    by_cases h1 : r.repoKey == "TOTAL"
    · rw [if_pos h1]; exact h
    · rw [if_neg h1]
      by_cases h2 : (!pyStr rn || rn == some r.repoKey) = true
      · rw [if_pos h2, dictInsert_keys]
        by_cases h3 : acc.any (fun kv => kv.1 == r.repoKey)
        · rw [if_pos h3]; exact h
        · rw [if_neg h3]
          intro hm
          rcases List.mem_append.mp hm with hm | hm
          · exact h hm
          · have he : "TOTAL" = r.repoKey := by simpa using hm
            exact h1 (beq_iff_eq.mpr he.symm)
      · rw [if_neg h2]; exact h

/-- With a truthy repo name matching no element, the list loop leaves the
accumulator untouched. -/
theorem list_skip_aux (s : String) (hs : s ≠ "") :
    ∀ (data : List RepoSummary), (∀ r ∈ data, r.repoKey ≠ s)
      → ∀ acc, data.foldl (Artifactory.listStep (some s)) acc = acc := by
  intro data
  induction data with
  | nil => intro _ acc; rfl
  | cons r l ih =>
    intro h acc
    have hr : r.repoKey ≠ s := h r (List.mem_cons_self r l)
    rw [List.foldl_cons]
    have hstep : Artifactory.listStep (some s) acc r = acc := by
      unfold Artifactory.listStep
      by_cases h1 : r.repoKey == "TOTAL"
      · rw [if_pos h1]
      · rw [if_neg h1, if_neg ?_]
        simp [pyStr, hs]
        exact fun hx => hr hx.symm
    rw [hstep]
    exact ih (fun x hx => h x (List.mem_cons_of_mem r hx)) acc

/-- Once the accumulator holds exactly the one matching entry, the list
loop keeps it a single entry at that key. -/
theorem list_single_aux (s : String) (hs : s ≠ "") :
    ∀ (data : List RepoSummary) (v : RepoSummary),
      ∃ w : RepoSummary,
        data.foldl (Artifactory.listStep (some s)) [(s, v)] = [(s, w)] := by
  intro data
  induction data with
  | nil => intro v; exact ⟨v, rfl⟩
  | cons r l ih =>
    intro v
    rw [List.foldl_cons]
    by_cases h1 : r.repoKey == "TOTAL"
    · have hstep : Artifactory.listStep (some s) [(s, v)] r = [(s, v)] := by
        unfold Artifactory.listStep
        rw [if_pos h1]
      rw [hstep]; exact ih v
    · by_cases hr : s = r.repoKey
      · have hstep : Artifactory.listStep (some s) [(s, v)] r = [(s, r)] := by
          unfold Artifactory.listStep
          rw [if_neg h1, if_pos (by simp [pyStr, hs, hr])]
          unfold dictInsert
          rw [if_pos (by simp [hr])]
          simp [← hr]
        rw [hstep]; exact ih r
      · have hstep : Artifactory.listStep (some s) [(s, v)] r = [(s, v)] := by
          unfold Artifactory.listStep
          rw [if_neg h1, if_neg ?_]
          simp [pyStr, hs]
          exact hr
        rw [hstep]; exact ih v

/-- When some element of the data carries the (non-TOTAL) key, the list
loop starting empty produces exactly one entry at that key. -/
theorem list_found_aux (s : String) (hs : s ≠ "") (hst : s ≠ "TOTAL") :
    ∀ data : List RepoSummary, (∃ r ∈ data, r.repoKey = s)
      → ∃ w, data.foldl (Artifactory.listStep (some s)) [] = [(s, w)] := by
  intro data
  induction data with
  | nil => intro h; exact absurd h (by simp)
  | cons r l ih =>
    intro h
    rw [List.foldl_cons]
    by_cases hr : r.repoKey = s
    · have hstep : Artifactory.listStep (some s) [] r = [(s, r)] := by
        unfold Artifactory.listStep
        rw [if_neg (by simp [hr, hst]), if_pos (by simp [pyStr, hs, hr])]
        unfold dictInsert
        rw [if_neg (by simp)]
        simp [hr]
      rw [hstep]
      exact list_single_aux s hs l r
    · have hstep : Artifactory.listStep (some s) [] r = [] := by
        unfold Artifactory.listStep
        by_cases h1 : r.repoKey == "TOTAL"
        · rw [if_pos h1]
        · rw [if_neg h1, if_neg ?_]
          simp [pyStr, hs]
          exact fun hx => hr hx.symm
      rw [hstep]
      apply ih
      rcases h with ⟨x, hx, hxs⟩
      rcases List.mem_cons.mp hx with hhead | htail
      · exact absurd (hhead ▸ hxs) hr
      · exact ⟨x, htail, hxs⟩

/-- C8: the synthetic TOTAL aggregate is never a key of the mapping that
list returns; a given (truthy) repo name matching an existing repository
key yields exactly that one entry, and one matching no key yields the
empty mapping rather than an error. -/
theorem list_repo_filtering (data : List RepoSummary) (repo_name : Option String) :
    "TOTAL" ∉ (Artifactory.list data repo_name).map Prod.fst
    ∧ (∀ s : String, s ≠ "" → s ≠ "TOTAL" → (∃ r ∈ data, r.repoKey = s)
        → (Artifactory.list data (some s)).map Prod.fst = [s])
    ∧ (∀ s : String, s ≠ "" → (∀ r ∈ data, r.repoKey ≠ s)
        → Artifactory.list data (some s) = []) := by
  refine ⟨list_total_aux repo_name data [] (by simp), ?_, ?_⟩
  · intro s hs hst hex
    obtain ⟨w, hw⟩ := list_found_aux s hs hst data hex
    unfold Artifactory.list
    rw [hw]
    rfl
  · intro s hs hnone
    unfold Artifactory.list
    exact list_skip_aux s hs data hnone []

/-- C8 witness: three summaries including the TOTAL aggregate; the name
alpha matches one key, the name gamma matches none. -/
theorem list_repo_filtering_witness :
    (("alpha" : String) ≠ "" ∧ ("alpha" : String) ≠ "TOTAL"
      ∧ (∃ r ∈ [(⟨"TOTAL", "t"⟩ : RepoSummary), ⟨"alpha", "a"⟩, ⟨"beta", "b"⟩], r.repoKey = "alpha"))
    ∧ (Artifactory.list [⟨"TOTAL", "t"⟩, ⟨"alpha", "a"⟩, ⟨"beta", "b"⟩] (some "alpha")).map Prod.fst
        = ["alpha"]
    ∧ Artifactory.list [⟨"TOTAL", "t"⟩, ⟨"alpha", "a"⟩, ⟨"beta", "b"⟩] (some "gamma") = [] :=
  ⟨⟨by decide, by decide, by decide⟩,
   (list_repo_filtering [⟨"TOTAL", "t"⟩, ⟨"alpha", "a"⟩, ⟨"beta", "b"⟩] (some "alpha")).2.1
     "alpha" (by decide) (by decide) (by decide),
   (list_repo_filtering [⟨"TOTAL", "t"⟩, ⟨"alpha", "a"⟩, ⟨"beta", "b"⟩] (some "gamma")).2.2
     "gamma" (by decide) (by decide)⟩

/-- Under a truthy count and no other policy, the retain step either skips
the project or appends the count query's results and the query itself. -/
theorem retainStep_count (env : String → List Item) (now : PyDateTime) (repo : String)
    (sp : Option String) (depth : Int) (N : Int) (hN : N ≠ 0)
    (acc : List String × List String) (p : Item) :
    Artifactory.retainStep env now repo sp depth none (some N) none acc p
      = if pySkip sp p.name then acc
        else (acc.1 ++ (env (countQuery repo depth N p)).map itemRef,
              acc.2 ++ [countQuery repo depth N p]) := by
  unfold Artifactory.retainStep
  by_cases hskip : pySkip sp p.name
  · rw [if_pos hskip, if_pos hskip]
  · rw [if_neg hskip, if_neg hskip]
    simp [pyInt, hN, Artifactory.filter, countQuery]

/-- C2 (amended: count non-null and nonzero): under the count policy the
engine issues, for every project passing the project filter, the artifact
query at depth+1 sorted created-descending with the count as offset, and
the purgable list is exactly the path/name references of the artifacts the
server returns for those queries — i.e., of every artifact beyond the N
most recent, for a server honouring sort and offset (hypotheses hproj and
hart describe the compliant server). -/
theorem retain_count_policy (env : String → List Item) (now : PyDateTime)
    (repo : String) (sp : Option String) (depth : Int) (N : Int) (hN : N ≠ 0)
    (projects : List Item) (store : String → List Item)
    (hproj : env (projectAql repo depth) = projects)
    (hart : ∀ p ∈ projects,
      env (countQuery repo depth N p)
        = dropOffset N (sortDescCreated (store (p.path ++ "/" ++ p.name)))) :
    Artifactory.retain env now repo sp depth none (some N) none
      = (Except.ok ((projects.filter (fun p => !pySkip sp p.name)).flatMap
            (fun p => (dropOffset N (sortDescCreated (store (p.path ++ "/" ++ p.name)))).map itemRef)),
         projectAql repo depth
           :: (projects.filter (fun p => !pySkip sp p.name)).map (countQuery repo depth N)) := by
  unfold Artifactory.retain
  rw [if_neg (fun hh => hh rfl)]
  have hstep : (Artifactory.retainStep env now repo sp depth none (some N) none)
      = fun acc p => if pySkip sp p.name then acc
          else (acc.1 ++ (env (countQuery repo depth N p)).map itemRef,
                acc.2 ++ [countQuery repo depth N p]) := by
    funext acc p
    exact retainStep_count env now repo sp depth N hN acc p
  have hproj' : env (filterAql repo none depth none none none) = projects := hproj
  simp only [Artifactory.filter, hstep, hproj']
  rw [foldl_collect]
  have hFG : (projects.filter (fun p => !pySkip sp p.name)).flatMap
        (fun p => (env (countQuery repo depth N p)).map itemRef)
      = (projects.filter (fun p => !pySkip sp p.name)).flatMap
        (fun p => (dropOffset N (sortDescCreated (store (p.path ++ "/" ++ p.name)))).map itemRef) :=
    bind_congr_mem _ _ _ fun p hp => by rw [hart p (List.mem_of_mem_filter hp)]
  rw [List.nil_append, hFG]
  rfl

/-- C2 counterexample: with count = 0 — non-null, as the claim's only
hypothesis demands — retain issues no artifact query at all (the trace
holds only the project query) and returns an empty purgable list, although
every artifact of the project lies beyond the 0 most recent, so the claim
would require the purgable list to be the project's one artifact. -/
theorem retain_count_zero_counterexample :
    Artifactory.retain env0 dt0 "r" none 0 none (some 0) none
        = (Except.ok [], [projectAql "r" 0])
    ∧ (dropOffset 0 (sortDescCreated store0)).map itemRef = ["p/proj/a1"]
    ∧ (Except.ok ["p/proj/a1"] : Except String (List String)) ≠ Except.ok [] :=
  ⟨rfl, rfl, fun h => by simp at h⟩

set_option maxRecDepth 100000 in
/-- C2 witness: a project with ten artifacts and count 3 — the purgable
set is the seven artifacts that are not the three most recent. -/
theorem retain_count_policy_witness :
    ((3 : Int) ≠ 0)
    ∧ Artifactory.retain env10 dt0 "repo" none 0 none (some 3) none
        = (Except.ok ["top/projA/a07", "top/projA/a06", "top/projA/a05", "top/projA/a04",
             "top/projA/a03", "top/projA/a02", "top/projA/a01"],
           [projectAql "repo" 0, countQuery10]) :=
  ⟨by decide,
   by
     have h := retain_count_policy env10 dt0 "repo" none 0 3 (by decide) [proj10] store10
       (by decide) (by decide)
     exact h.trans rfl⟩

set_option maxRecDepth 100000 in
/-- C3: the weeks policy computes the cutoff as now minus 7*weeks days and
formats it as YYYY-MM-DDTHH:MM:SSZ, but the additional term it sends is
the bare pair created-to-cutoff, which under the query language's default
comparator is an equality match, not a before-cutoff constraint: against a
store holding an artifact created strictly before the cutoff and one
created at exactly the cutoff second, only the exact-equality artifact is
returned as purgable and the genuinely old artifact is missed. -/
theorem retain_weeks_equality_bug :
    Artifactory.retain env3 dt3 "r" none 0 none none (some 1)
        = (Except.ok ["p/proj/exact"], [projectAql "r" 0, weeksQ3])
    ∧ oldArt3 ∈ store3
    ∧ strLt oldArt3.created cutoff3 = true
    ∧ itemRef oldArt3 ∉ ["p/proj/exact"] :=
  ⟨rfl, by decide, by decide, by decide⟩
